import Mathlib

/-!
Shallow embedding of the data quality checker engine of `src/main.py`
(class `DataQualityChecker`).  Database cell values are modelled as
`Option String` (`none` is SQL NULL).  A query outcome that may raise
`sqlite3.Error` is modelled with `Except String` carrying the error message.
The possibility that a query inside the big `try` block of
`_run_field_checks` raises is modelled by a `failAt : Option Nat` parameter
giving the index, in execution order, of the query that raises, if any.
-/

namespace DQC

/-- Finding record emitted by the checker: the dictionaries appended to
`results` in `_run_field_checks`. -/
structure Finding where
  table : String
  field : String
  check_type : String
  status : String
  message : String
deriving DecidableEq

/-- Per-field check flags, the dictionary stored per field by
`load_checks_config`. -/
structure FieldChecks where
  description : String
  special_characters_check : Bool
  null_check : Bool
  blank_check : Bool
  max_value_check : Bool
  min_value_check : Bool
  max_count_check : Bool
  email_check : Bool
  numeric_check : Bool
  system_codes_check : Bool
  language_check : Bool
  phone_number_check : Bool
  duplicate_check : Bool
  date_check : Bool
deriving DecidableEq

/-- Model of Python str.strip: drop leading and trailing whitespace,
implemented over the character list of the string. -/
def pyStrip (s : String) : String :=
  ⟨((s.data.dropWhile Char.isWhitespace).reverse.dropWhile Char.isWhitespace).reverse⟩

/-- Model of Python str.upper on the ASCII strings this engine compares,
mapping a-z to A-Z. -/
def pyUpper (s : String) : String :=
  ⟨s.data.map Char.toUpper⟩

/-- Python str.split on a single separator character, over explicit
character lists. -/
def splitListOn (sep : Char) : List Char → List (List Char)
  | [] => [[]]
  | ch :: rest =>
    match splitListOn sep rest with
    | [] => if ch == sep then [[], []] else [[ch]]
    | h :: t => if ch == sep then [] :: h :: t else (ch :: h) :: t

/-- Character class `[a-zA-Z0-9._%+-]` of the local part of the regex in
`_is_valid_email`. -/
def emailLocalChar (ch : Char) : Bool :=
  ch.isAlpha || ch.isDigit || ch == '.' || ch == '_' || ch == '%' || ch == '+' || ch == '-'

/-- Character class `[a-zA-Z0-9.-]` of the domain part of the regex in
`_is_valid_email`. -/
def emailDomainChar (ch : Char) : Bool :=
  ch.isAlpha || ch.isDigit || ch == '.' || ch == '-'

/-- Decides `_is_valid_email`: whole-string membership in the language of the
source regex (local part, `@`, domain part, `.`, a TLD of at least two
letters).  Because `@` belongs to neither character class, a matching string
has exactly one `@`; because the TLD class `[a-zA-Z]` does not contain `.`,
the split of the domain part can only be at its last `.`, so the match is
decided structurally on those unique split points. -/
def is_valid_email (s : String) : Bool :=
  match splitListOn '@' s.data with
  | [l, d] =>
    (!l.isEmpty) && l.all emailLocalChar &&
    (let parts := splitListOn '.' d
     let tld := parts.getLastD []
     let dom := List.intercalate ['.'] parts.dropLast
     decide (2 ≤ parts.length) && (!dom.isEmpty) && dom.all emailDomainChar &&
     decide (2 ≤ tld.length) && tld.all Char.isAlpha)
  | _ => false

/-- Result of the substitution in `_is_valid_phone`: every character other
than digits and `+` is removed.  Note that every `+` is kept, not only a
leading one. -/
def phoneClean (s : String) : List Char :=
  s.toList.filter (fun ch => ch.isDigit || ch == '+')

/-- Tail of the phone pattern after the optional `+`: one digit `1`-`9`
followed by 9 to 14 digits, end of string. -/
def matchPhoneTail (l : List Char) : Bool :=
  match l with
  | c :: ds => decide ('1' ≤ c) && decide (c ≤ '9') && ds.all Char.isDigit &&
      decide (9 ≤ ds.length) && decide (ds.length ≤ 14)
  | [] => false

/-- Matcher for the second regex of `_is_valid_phone` against the cleaned
string: an optional leading `+`, then `matchPhoneTail`.  When the head is `+`
the optional group must consume it, since `+` cannot match `[1-9]`. -/
def matchPhonePattern (l : List Char) : Bool :=
  match l with
  | '+' :: rest => matchPhoneTail rest
  | _ => matchPhoneTail l

/-- Model of `_is_valid_phone`. -/
def is_valid_phone (s : String) : Bool :=
  let cleaned := phoneClean s
  if decide (cleaned.length < 10) || decide (15 < cleaned.length) then false
  else matchPhonePattern cleaned

/-- Non-null values of a column in row order: the rows kept by
`WHERE field IS NOT NULL`. -/
def nonNullVals (col : List (Option String)) : List String :=
  col.filterMap id

/-- Values selected by `WHERE field IS NOT NULL AND field != ''`, in row
order. -/
def nonNullNonBlank (col : List (Option String)) : List String :=
  (col.filterMap id).filter (fun v => !(v == ""))

/-- Inner loop of the first-occurrence distinct scan: values already seen
are dropped, new values are kept and remembered. -/
def distinctAux (seen : List String) : List String → List String
  | [] => []
  | x :: xs => if seen.contains x then distinctAux seen xs
      else x :: distinctAux (x :: seen) xs

/-- First-occurrence distinct values, modelling the rows of
`SELECT DISTINCT`. -/
def distinctFirst (l : List String) : List String := distinctAux [] l

/-- Groups returned by the duplicate query over the non-null values `l`:
each distinct value paired with its number of occurrences, keeping only the
groups with `HAVING COUNT(*) > 1`.  The `ORDER BY count DESC` clause of the
source query only permutes this list; both numbers put into the emitted
Finding (the sum of `count - 1` and the number of groups) are invariant under
permutation, so the ordering is not modelled. -/
def dupGroups (l : List String) : List (String × Nat) :=
  ((distinctFirst l).map (fun v => (v, l.count v))).filter (fun g => decide (1 < g.2))

/-- Total reported by the duplicate check: sum of `count - 1` over the
groups, computed by `sum(count - 1 for _, count in duplicates)`. -/
def dupTotal (l : List String) : Nat :=
  ((dupGroups l).map (fun g => g.2 - 1)).sum

/-- Message of the `except sqlite3.Error` handler. -/
def dbErrMsg (e : String) : String := s!"Database error: {e}"

/-- Message of the `column_existence` Finding. -/
def colMissingMsg (tn fn : String) : String :=
  s!"Column \x27{fn}\x27 does not exist in table \x27{tn}\x27"

/-- Message of the `data_existence` Finding. -/
def noDataMsg (tn : String) : String := s!"Table \x27{tn}\x27 has no data"

/-- Message of the failing null check. -/
def nullFailMsg (cnt total : Nat) : String :=
  s!"Found {cnt} NULL values out of {total} total rows"

/-- Message of the failing blank check. -/
def blankFailMsg (cnt total : Nat) : String :=
  s!"Found {cnt} blank values out of {total} total rows"

/-- Message of the failing email check. -/
def emailFailMsg (bad nn : Nat) : String :=
  s!"Found {bad} invalid email formats out of {nn} values"

/-- Message of the passing email check. -/
def emailPassMsg (nn : Nat) : String := s!"All {nn} email formats appear valid"

/-- Message of the failing system codes check, before the optional suffix. -/
def codesFailMsg (bad nn : Nat) : String :=
  s!"Found {bad} invalid system codes out of {nn} values"

/-- Suffix appended to the failing system codes message when codes are
declared. -/
def codesSuffixMsg (nc : Nat) : String := s!" (Valid codes: {nc} defined)"

/-- Message of the passing system codes check. -/
def codesPassMsg (nn : Nat) : String := s!"All {nn} values are valid system codes"

/-- Message of the failing duplicate check. -/
def dupFailMsg (total distinctCount : Nat) : String :=
  s!"Found {total} duplicate values across {distinctCount} distinct values"

/-- Finding appended by the `except sqlite3.Error` handler of
`_run_field_checks`. -/
def dbErrorFinding (tn fn errMsg : String) : Finding :=
  ⟨tn, fn, "database_error", "ERROR", dbErrMsg errMsg⟩

/-- Null check block of `_run_field_checks`: one COUNT query (index `k`)
when the flag is enabled. -/
def nullBlock (tn fn : String) (c : FieldChecks) (col : List (Option String))
    (failAt : Option Nat) (errMsg : String) (k : Nat) (acc : List Finding) :
    Except (List Finding) (Nat × List Finding) :=
  if c.null_check then
    if failAt == some k then .error (acc ++ [dbErrorFinding tn fn errMsg])
    else
      let nullCount := col.countP (fun v => v.isNone)
      let totalRows := col.length
      if 0 < nullCount then
        .ok (k + 1, acc ++ [⟨tn, fn, "null_check", "FAIL", nullFailMsg nullCount totalRows⟩])
      else
        .ok (k + 1, acc ++ [⟨tn, fn, "null_check", "PASS", "No NULL values found"⟩])
  else .ok (k, acc)

/-- Blank check block of `_run_field_checks`: one COUNT query (index `k`)
when the flag is enabled. -/
def blankBlock (tn fn : String) (c : FieldChecks) (col : List (Option String))
    (failAt : Option Nat) (errMsg : String) (k : Nat) (acc : List Finding) :
    Except (List Finding) (Nat × List Finding) :=
  if c.blank_check then
    if failAt == some k then .error (acc ++ [dbErrorFinding tn fn errMsg])
    else
      let blankCount := col.countP (fun v => v == some "")
      let totalRows := col.length
      if 0 < blankCount then
        .ok (k + 1, acc ++ [⟨tn, fn, "blank_check", "FAIL", blankFailMsg blankCount totalRows⟩])
      else
        .ok (k + 1, acc ++ [⟨tn, fn, "blank_check", "PASS", "No blank values found"⟩])
  else .ok (k, acc)

/-- Email check block of `_run_field_checks`: a COUNT query (index `k`) and,
only when the count is positive, a `LIMIT 100` sample query (index `k + 1`).
When the count of non-null non-blank values is zero no Finding is emitted. -/
def emailBlock (tn fn : String) (c : FieldChecks) (col : List (Option String))
    (failAt : Option Nat) (errMsg : String) (k : Nat) (acc : List Finding) :
    Except (List Finding) (Nat × List Finding) :=
  if c.email_check then
    if failAt == some k then .error (acc ++ [dbErrorFinding tn fn errMsg])
    else
      let nn := (nonNullNonBlank col).length
      if 0 < nn then
        if failAt == some (k + 1) then .error (acc ++ [dbErrorFinding tn fn errMsg])
        else
          let sample := (nonNullNonBlank col).take 100
          let invalid := (sample.map pyStrip).filter (fun e => !is_valid_email e)
          let bad := invalid.length
          if 0 < bad then
            .ok (k + 2, acc ++ [⟨tn, fn, "email_check", "FAIL", emailFailMsg bad nn⟩])
          else
            .ok (k + 2, acc ++ [⟨tn, fn, "email_check", "PASS", emailPassMsg nn⟩])
      else .ok (k + 1, acc)
  else .ok (k, acc)

/-- Membership test of the system codes check: a sampled value is flagged
invalid when some codes are declared and its trimmed upper-cased form is not
among the upper-cased declared codes. -/
def codeInvalid (codes : List String) (v : String) : Bool :=
  !codes.isEmpty && !((codes.map pyUpper).contains (pyUpper (pyStrip v)))

/-- System codes block of `_run_field_checks`: a COUNT query (index `k`)
and, only when the count is positive, a `SELECT DISTINCT ... LIMIT 100`
sample query (index `k + 1`).  When the count of non-null non-blank values
is zero no Finding is emitted. -/
def codesBlock (tn fn : String) (c : FieldChecks) (col : List (Option String))
    (codes : List String) (failAt : Option Nat) (errMsg : String) (k : Nat)
    (acc : List Finding) : Except (List Finding) (Nat × List Finding) :=
  if c.system_codes_check then
    if failAt == some k then .error (acc ++ [dbErrorFinding tn fn errMsg])
    else
      let nn := (nonNullNonBlank col).length
      if 0 < nn then
        if failAt == some (k + 1) then .error (acc ++ [dbErrorFinding tn fn errMsg])
        else
          let vals := (distinctFirst (nonNullNonBlank col)).take 100
          let invalid := (vals.filter (fun v => codeInvalid codes v)).map pyStrip
          let bad := invalid.length
          let nc := codes.length
          if 0 < bad then
            let base := codesFailMsg bad nn
            let msg := if codes.isEmpty then base else base ++ codesSuffixMsg nc
            .ok (k + 2, acc ++ [⟨tn, fn, "system_codes_check", "FAIL", msg⟩])
          else
            .ok (k + 2, acc ++ [⟨tn, fn, "system_codes_check", "PASS", codesPassMsg nn⟩])
      else .ok (k + 1, acc)
  else .ok (k, acc)

/-- Duplicate check block of `_run_field_checks`: one group-by query
(index `k`) when the flag is enabled. -/
def dupBlock (tn fn : String) (c : FieldChecks) (col : List (Option String))
    (failAt : Option Nat) (errMsg : String) (k : Nat) (acc : List Finding) :
    Except (List Finding) (Nat × List Finding) :=
  if c.duplicate_check then
    if failAt == some k then .error (acc ++ [dbErrorFinding tn fn errMsg])
    else
      let dups := dupGroups (nonNullVals col)
      if !dups.isEmpty then
        let total := dupTotal (nonNullVals col)
        let distinctCount := dups.length
        .ok (k + 1, acc ++ [⟨tn, fn, "duplicate_check", "FAIL",
          dupFailMsg total distinctCount⟩])
      else
        .ok (k + 1, acc ++ [⟨tn, fn, "duplicate_check", "PASS", "No duplicate values found"⟩])
  else .ok (k, acc)

/-- Model of `_table_exists`: the outcome of the `sqlite_master` lookup is
`fetchone`, an optional row; a raised `sqlite3.Error` is the `error` case and
is caught, yielding `false`. -/
def table_exists (q : Except String (Option String)) : Bool :=
  match q with
  | .ok r => r.isSome
  | .error _ => false

/-- Model of `_column_exists`: the PRAGMA query yields the list of column
names of the table; a raised `sqlite3.Error` is the `error` case and is
caught, yielding `false`. -/
def column_exists (q : Except String (List String)) (column_name : String) : Bool :=
  match q with
  | .ok cols => cols.contains column_name
  | .error _ => false

/-- Model of `_run_field_checks`.  `colIntro` is the outcome of the PRAGMA
introspection query issued by `_column_exists`; `col` lists the value of the
checked field in every row of the table, so `COUNT(*)` is `col.length`;
`failAt` gives the index, in execution order inside the `try` block, of the
query that raises `sqlite3.Error`, if any, with message `errMsg`; `codes` is
the result of `_get_valid_system_codes` for this table and field. -/
def run_field_checks (tn fn : String) (c : FieldChecks)
    (colIntro : Except String (List String)) (col : List (Option String))
    (failAt : Option Nat) (errMsg : String) (codes : List String) : List Finding :=
  if !(column_exists colIntro fn) then
    [⟨tn, fn, "column_existence", "FAIL", colMissingMsg tn fn⟩]
  else if failAt == some 0 then [dbErrorFinding tn fn errMsg]
  else if col.length == 0 then
    [⟨tn, fn, "data_existence", "WARNING", noDataMsg tn⟩]
  else
    match nullBlock tn fn c col failAt errMsg 1 [] with
    | .error fs => fs
    | .ok (k1, a1) =>
      match blankBlock tn fn c col failAt errMsg k1 a1 with
      | .error fs => fs
      | .ok (k2, a2) =>
        match emailBlock tn fn c col failAt errMsg k2 a2 with
        | .error fs => fs
        | .ok (k3, a3) =>
          match codesBlock tn fn c col codes failAt errMsg k3 a3 with
          | .error fs => fs
          | .ok (k4, a4) =>
            match dupBlock tn fn c col failAt errMsg k4 a4 with
            | .error fs => fs
            | .ok (_, a5) => a5

/-- Configuration built by `load_checks_config`:
`table_name -> field_name -> FieldChecks`, with Python dicts modelled as
insertion-ordered association lists. -/
abbrev ChecksCfg := List (String × List (String × FieldChecks))

/-- Configuration built by `load_system_codes_config`:
`table_name -> field_name -> list of valid codes`. -/
abbrev CodesCfg := List (String × List (String × List String))

/-- One data row of a `csv.DictReader`: column name to cell text. -/
abbrev Row := List (String × String)

/-- Lookup in a Python dict modelled as an insertion-ordered association
list. -/
def dictGet {β : Type} (m : List (String × β)) (k : String) : Option β :=
  (m.find? (fun p => p.1 == k)).map (fun p => p.2)

/-- Assignment `m[k] = v` on a Python dict: overwrite in place when the key
is present, append at the end otherwise. -/
def dictInsert {β : Type} (m : List (String × β)) (k : String) (v : β) :
    List (String × β) :=
  if m.any (fun p => p.1 == k) then
    m.map (fun p => if p.1 == k then (k, v) else p)
  else m ++ [(k, v)]

/-- Column access `row[name]` on a `csv.DictReader` row: `none` models the
`KeyError` raised when the header is missing the column. -/
def rowGet (r : Row) (k : String) : Option String :=
  dictGet r k

/-- Evaluation of the dictionary literal stored per field by
`load_checks_config`: the row cells are read in source order and the first
missing column raises (`none`).  A flag is enabled only when the cell is the
literal string 1. -/
def buildFieldChecks (r : Row) : Option FieldChecks := do
  let d ← rowGet r "description"
  let sc ← rowGet r "special_characters_check"
  let nc ← rowGet r "null_check"
  let bc ← rowGet r "blank_check"
  let maxv ← rowGet r "max_value_check"
  let minv ← rowGet r "min_value_check"
  let maxc ← rowGet r "max_count_check"
  let ec ← rowGet r "email_check"
  let num ← rowGet r "numeric_check"
  let sys ← rowGet r "system_codes_check"
  let lang ← rowGet r "language_check"
  let ph ← rowGet r "phone_number_check"
  let dup ← rowGet r "duplicate_check"
  let dt ← rowGet r "date_check"
  pure {
    description := d
    special_characters_check := sc == "1"
    null_check := nc == "1"
    blank_check := bc == "1"
    max_value_check := maxv == "1"
    min_value_check := minv == "1"
    max_count_check := maxc == "1"
    email_check := ec == "1"
    numeric_check := num == "1"
    system_codes_check := sys == "1"
    language_check := lang == "1"
    phone_number_check := ph == "1"
    duplicate_check := dup == "1"
    date_check := dt == "1" }

/-- Row loop of `load_checks_config`.  Any missing column raises `KeyError`,
caught by the blanket `except`, which returns `False` with the configuration
left in whatever state the loop reached: the code mutates
`self.checks_config` in place (it neither clears it first nor builds into a
temporary), and the empty per-table entry is created before the field
dictionary literal is evaluated. -/
def loadChecksRows (cfg : ChecksCfg) : List Row → Bool × ChecksCfg
  | [] => (true, cfg)
  | r :: rest =>
    match rowGet r "table_name" with
    | none => (false, cfg)
    | some t0 =>
      match rowGet r "field_name" with
      | none => (false, cfg)
      | some f0 =>
        let t := pyStrip t0
        let f := pyStrip f0
        let cfg1 := if dictGet cfg t == none then dictInsert cfg t [] else cfg
        match buildFieldChecks r with
        | none => (false, cfg1)
        | some fc =>
          loadChecksRows (dictInsert cfg1 t (dictInsert ((dictGet cfg1 t).getD []) f fc)) rest

/-- Model of `load_checks_config`: merges the rows into the existing
configuration in place. -/
def load_checks_config (cfg : ChecksCfg) (rows : List Row) : Bool × ChecksCfg :=
  loadChecksRows cfg rows

/-- Row loop of `load_system_codes_config`.  The cells are read in source
order (`table_name`, `field_name`, `valid_codes`) and the first missing
column raises, returning `False` with the partially built configuration. -/
def loadCodesRows (cfg : CodesCfg) : List Row → Bool × CodesCfg
  | [] => (true, cfg)
  | r :: rest =>
    match rowGet r "table_name" with
    | none => (false, cfg)
    | some t0 =>
      match rowGet r "field_name" with
      | none => (false, cfg)
      | some f0 =>
        match rowGet r "valid_codes" with
        | none => (false, cfg)
        | some vs =>
          let t := pyStrip t0
          let f := pyStrip f0
          let codes := ((splitListOn ',' vs.data).map (fun l => pyStrip ⟨l⟩)).filter
            (fun x => !(x == ""))
          loadCodesRows (dictInsert cfg t (dictInsert ((dictGet cfg t).getD []) f codes)) rest

/-- Model of `load_system_codes_config`: the previous configuration is
discarded up front (`self.system_codes_config = {}`) and the rows are loaded
into a fresh dict, so the result never depends on the old value — but a
failed load leaves the cleared, partially rebuilt dict in place. -/
def load_system_codes_config (_old : CodesCfg) (rows : List Row) : Bool × CodesCfg :=
  loadCodesRows [] rows

/-- Model of `_get_valid_system_codes`:
`self.system_codes_config.get(table, {}).get(field, [])`. -/
def get_valid_system_codes (codesCfg : CodesCfg) (tn fn : String) : List String :=
  (dictGet ((dictGet codesCfg tn).getD []) fn).getD []

/-- Data source handed to the run operations: per-table introspection query
outcomes, per-field column values, and the per-field error injection point
for the `try` block of `_run_field_checks`. -/
structure Database where
  tableQ : String → Except String (Option String)
  colsQ : String → Except String (List String)
  colVals : String → String → List (Option String)
  failAt : String → String → Option Nat
  errMsg : String → String → String

/-- Inner loop of `run_all_checks` over the fields of one table, extending
the accumulated list with the findings of each field. -/
def run_table_checks (codesCfg : CodesCfg) (db : Database) (tn : String) :
    List (String × FieldChecks) → List Finding
  | [] => []
  | (fn, c) :: rest =>
      run_field_checks tn fn c (db.colsQ tn) (db.colVals tn fn) (db.failAt tn fn)
          (db.errMsg tn fn) (get_valid_system_codes codesCfg tn fn)
        ++ run_table_checks codesCfg db tn rest

/-- Outer loop of `run_all_checks` over the configured tables: a table whose
`_table_exists` probe fails is skipped silently, and a table with an empty
findings list is omitted from the report. -/
def run_tables (codesCfg : CodesCfg) (db : Database) :
    ChecksCfg → List (String × List Finding)
  | [] => []
  | (tn, fields) :: rest =>
      if !(table_exists (db.tableQ tn)) then run_tables codesCfg db rest
      else
        let tr := run_table_checks codesCfg db tn fields
        if tr.isEmpty then run_tables codesCfg db rest
        else (tn, tr) :: run_tables codesCfg db rest

/-- Model of `run_all_checks`. -/
def run_all_checks (cfg : ChecksCfg) (codesCfg : CodesCfg) (db : Database) :
    List (String × List Finding) :=
  if cfg.isEmpty then [] else run_tables codesCfg db cfg

/-- Model of `run_checks_for_specific_table`. -/
def run_checks_for_specific_table (cfg : ChecksCfg) (codesCfg : CodesCfg)
    (db : Database) (tn : String) : List (String × List Finding) :=
  match dictGet cfg tn with
  | none => []
  | some fields =>
    if !(table_exists (db.tableQ tn)) then []
    else
      let tr := run_table_checks codesCfg db tn fields
      if tr.isEmpty then [] else [(tn, tr)]

/-! ### Helper definitions and lemmas -/

/-- All-off check flags, used to build concrete configurations. -/
def noChecks : FieldChecks :=
  ⟨"", false, false, false, false, false, false, false, false, false, false, false, false, false⟩

/-- Findings carried by a block outcome, error or not. -/
def blockFindings : Except (List Finding) (Nat × List Finding) → List Finding
  | .error fs => fs
  | .ok (_, fs) => fs

/-- Statuses a Finding may carry. -/
def statusOK (f : Finding) : Prop :=
  f.status = "PASS" ∨ f.status = "FAIL" ∨ f.status = "WARNING" ∨ f.status = "ERROR"

/-- Check types a Finding may carry. -/
def checkTypeOK (f : Finding) : Prop :=
  f.check_type = "column_existence" ∨ f.check_type = "data_existence" ∨
  f.check_type = "null_check" ∨ f.check_type = "blank_check" ∨
  f.check_type = "email_check" ∨ f.check_type = "system_codes_check" ∨
  f.check_type = "duplicate_check" ∨ f.check_type = "database_error"

/-- Shape invariant of every Finding produced by `_run_field_checks` for a
given table, field, column and code list. -/
def fieldFindingOK (tn fn : String) (col : List (Option String))
    (codes : List String) (f : Finding) : Prop :=
  f.table = tn ∧ f.field = fn ∧ statusOK f ∧ checkTypeOK f ∧
  ((f.check_type = "email_check" ∨ f.check_type = "system_codes_check") →
    0 < (nonNullNonBlank col).length) ∧
  (f.check_type = "system_codes_check" → codes = [] → f.status = "PASS")

theorem fieldFindingOK_dbError (tn fn errMsg : String) (col : List (Option String))
    (codes : List String) : fieldFindingOK tn fn col codes (dbErrorFinding tn fn errMsg) := by
  refine ⟨rfl, rfl, Or.inr (Or.inr (Or.inr rfl)),
    Or.inr (Or.inr (Or.inr (Or.inr (Or.inr (Or.inr (Or.inr rfl)))))), ?_, ?_⟩
  · intro h
    rcases h with h | h
    · exact absurd (show ("database_error" : String) = "email_check" from h) (by decide)
    · exact absurd (show ("database_error" : String) = "system_codes_check" from h) (by decide)
  · intro h
    exact absurd (show ("database_error" : String) = "system_codes_check" from h) (by decide)

theorem fieldFindingOK_plain (tn fn ct st msg : String) (col : List (Option String))
    (codes : List String)
    (hst : st = "PASS" ∨ st = "FAIL" ∨ st = "WARNING" ∨ st = "ERROR")
    (hct : ct = "column_existence" ∨ ct = "data_existence" ∨ ct = "null_check" ∨
      ct = "blank_check" ∨ ct = "duplicate_check" ∨ ct = "database_error")
    (hem : ct ≠ "email_check") (hsc : ct ≠ "system_codes_check") :
    fieldFindingOK tn fn col codes ⟨tn, fn, ct, st, msg⟩ := by
  refine ⟨rfl, rfl, hst, ?_, ?_, ?_⟩
  · rcases hct with rfl | rfl | rfl | rfl | rfl | rfl
    · exact Or.inl rfl
    · exact Or.inr (Or.inl rfl)
    · exact Or.inr (Or.inr (Or.inl rfl))
    · exact Or.inr (Or.inr (Or.inr (Or.inl rfl)))
    · exact Or.inr (Or.inr (Or.inr (Or.inr (Or.inr (Or.inr (Or.inl rfl))))))
    · exact Or.inr (Or.inr (Or.inr (Or.inr (Or.inr (Or.inr (Or.inr rfl))))))
  · intro h
    rcases h with h | h
    · exact absurd h hem
    · exact absurd h hsc
  · intro h
    exact absurd h hsc

theorem forall_findings_append {P : Finding → Prop} {acc : List Finding} {g : Finding}
    (hacc : ∀ f ∈ acc, P f) (hg : P g) : ∀ f ∈ acc ++ [g], P f := by
  intro f hf
  rcases List.mem_append.1 hf with h | h
  · exact hacc f h
  · rcases List.mem_singleton.1 h with rfl
    exact hg

theorem nullBlock_findings (tn fn : String) (c : FieldChecks) (col : List (Option String))
    (codes : List String) (failAt : Option Nat) (errMsg : String) (k : Nat)
    (acc : List Finding) (hacc : ∀ f ∈ acc, fieldFindingOK tn fn col codes f) :
    ∀ f ∈ blockFindings (nullBlock tn fn c col failAt errMsg k acc),
      fieldFindingOK tn fn col codes f := by
  unfold nullBlock
  split
  · split
    · exact forall_findings_append hacc (fieldFindingOK_dbError tn fn errMsg col codes)
    · dsimp only
      split
      · exact forall_findings_append hacc (fieldFindingOK_plain tn fn "null_check" "FAIL" _
          col codes (Or.inr (Or.inl rfl)) (Or.inr (Or.inr (Or.inl rfl))) (by decide) (by decide))
      · exact forall_findings_append hacc (fieldFindingOK_plain tn fn "null_check" "PASS" _
          col codes (Or.inl rfl) (Or.inr (Or.inr (Or.inl rfl))) (by decide) (by decide))
  · exact hacc

theorem blankBlock_findings (tn fn : String) (c : FieldChecks) (col : List (Option String))
    (codes : List String) (failAt : Option Nat) (errMsg : String) (k : Nat)
    (acc : List Finding) (hacc : ∀ f ∈ acc, fieldFindingOK tn fn col codes f) :
    ∀ f ∈ blockFindings (blankBlock tn fn c col failAt errMsg k acc),
      fieldFindingOK tn fn col codes f := by
  unfold blankBlock
  split
  · split
    · exact forall_findings_append hacc (fieldFindingOK_dbError tn fn errMsg col codes)
    · dsimp only
      split
      · exact forall_findings_append hacc (fieldFindingOK_plain tn fn "blank_check" "FAIL" _
          col codes (Or.inr (Or.inl rfl)) (Or.inr (Or.inr (Or.inr (Or.inl rfl))))
          (by decide) (by decide))
      · exact forall_findings_append hacc (fieldFindingOK_plain tn fn "blank_check" "PASS" _
          col codes (Or.inl rfl) (Or.inr (Or.inr (Or.inr (Or.inl rfl)))) (by decide) (by decide))
  · exact hacc

theorem emailBlock_findings (tn fn : String) (c : FieldChecks) (col : List (Option String))
    (codes : List String) (failAt : Option Nat) (errMsg : String) (k : Nat)
    (acc : List Finding) (hacc : ∀ f ∈ acc, fieldFindingOK tn fn col codes f) :
    ∀ f ∈ blockFindings (emailBlock tn fn c col failAt errMsg k acc),
      fieldFindingOK tn fn col codes f := by
  unfold emailBlock
  split
  · split
    · exact forall_findings_append hacc (fieldFindingOK_dbError tn fn errMsg col codes)
    · dsimp only
      split
      case isTrue hnn =>
        split
        · exact forall_findings_append hacc (fieldFindingOK_dbError tn fn errMsg col codes)
        · split
          · refine forall_findings_append hacc ⟨rfl, rfl, Or.inr (Or.inl rfl),
              Or.inr (Or.inr (Or.inr (Or.inr (Or.inl rfl)))), fun _ => hnn, ?_⟩
            intro h
            exact absurd (show ("email_check" : String) = "system_codes_check" from h)
              (by decide)
          · refine forall_findings_append hacc ⟨rfl, rfl, Or.inl rfl,
              Or.inr (Or.inr (Or.inr (Or.inr (Or.inl rfl)))), fun _ => hnn, ?_⟩
            intro h
            exact absurd (show ("email_check" : String) = "system_codes_check" from h)
              (by decide)
      case isFalse => exact hacc
  · exact hacc

theorem codesBlock_findings (tn fn : String) (c : FieldChecks) (col : List (Option String))
    (codes : List String) (failAt : Option Nat) (errMsg : String) (k : Nat)
    (acc : List Finding) (hacc : ∀ f ∈ acc, fieldFindingOK tn fn col codes f) :
    ∀ f ∈ blockFindings (codesBlock tn fn c col codes failAt errMsg k acc),
      fieldFindingOK tn fn col codes f := by
  unfold codesBlock
  split
  · split
    · exact forall_findings_append hacc (fieldFindingOK_dbError tn fn errMsg col codes)
    · dsimp only
      split
      case isTrue hnn =>
        split
        · exact forall_findings_append hacc (fieldFindingOK_dbError tn fn errMsg col codes)
        · split
          case isTrue hbad =>
            refine forall_findings_append hacc ⟨rfl, rfl, Or.inr (Or.inl rfl),
              Or.inr (Or.inr (Or.inr (Or.inr (Or.inr (Or.inl rfl))))), fun _ => hnn, ?_⟩
            intro _ hcodes
            subst hcodes
            simp [codeInvalid] at hbad
          case isFalse =>
            exact forall_findings_append hacc ⟨rfl, rfl, Or.inl rfl,
              Or.inr (Or.inr (Or.inr (Or.inr (Or.inr (Or.inl rfl))))), fun _ => hnn,
              fun _ _ => rfl⟩
      case isFalse => exact hacc
  · exact hacc

theorem dupBlock_findings (tn fn : String) (c : FieldChecks) (col : List (Option String))
    (codes : List String) (failAt : Option Nat) (errMsg : String) (k : Nat)
    (acc : List Finding) (hacc : ∀ f ∈ acc, fieldFindingOK tn fn col codes f) :
    ∀ f ∈ blockFindings (dupBlock tn fn c col failAt errMsg k acc),
      fieldFindingOK tn fn col codes f := by
  unfold dupBlock
  split
  · split
    · exact forall_findings_append hacc (fieldFindingOK_dbError tn fn errMsg col codes)
    · dsimp only
      split
      · exact forall_findings_append hacc (fieldFindingOK_plain tn fn "duplicate_check"
          "FAIL" _ col codes (Or.inr (Or.inl rfl))
          (Or.inr (Or.inr (Or.inr (Or.inr (Or.inl rfl))))) (by decide) (by decide))
      · exact forall_findings_append hacc (fieldFindingOK_plain tn fn "duplicate_check"
          "PASS" _ col codes (Or.inl rfl)
          (Or.inr (Or.inr (Or.inr (Or.inr (Or.inl rfl))))) (by decide) (by decide))
  · exact hacc

/-- Master shape lemma: every Finding produced by `_run_field_checks` names
the given table and field, has one of the four statuses and one of the eight
check types; an email or system codes Finding exists only when the non-null
non-blank count is positive, and with no declared codes a system codes
Finding can only be a PASS. -/
theorem run_field_checks_mem (tn fn : String) (c : FieldChecks)
    (colIntro : Except String (List String)) (col : List (Option String))
    (failAt : Option Nat) (errMsg : String) (codes : List String) :
    ∀ f ∈ run_field_checks tn fn c colIntro col failAt errMsg codes,
      fieldFindingOK tn fn col codes f := by
  unfold run_field_checks
  split
  · intro f hf
    rcases List.mem_singleton.1 hf with rfl
    exact fieldFindingOK_plain tn fn "column_existence" "FAIL" _ col codes
      (Or.inr (Or.inl rfl)) (Or.inl rfl) (by decide) (by decide)
  · split
    · intro f hf
      rcases List.mem_singleton.1 hf with rfl
      exact fieldFindingOK_dbError tn fn errMsg col codes
    · split
      · intro f hf
        rcases List.mem_singleton.1 hf with rfl
        exact fieldFindingOK_plain tn fn "data_existence" "WARNING" _ col codes
          (Or.inr (Or.inr (Or.inl rfl))) (Or.inr (Or.inl rfl)) (by decide) (by decide)
      · have h0 : ∀ f ∈ ([] : List Finding), fieldFindingOK tn fn col codes f := by
          intro f hf
          cases hf
        have h1 := nullBlock_findings tn fn c col codes failAt errMsg 1 [] h0
        cases e1 : nullBlock tn fn c col failAt errMsg 1 [] with
        | error fs => simpa [blockFindings, e1] using h1
        | ok r1 =>
          have h1a : ∀ f ∈ r1.2, fieldFindingOK tn fn col codes f := by
            simpa [blockFindings, e1] using h1
          have h2 := blankBlock_findings tn fn c col codes failAt errMsg r1.1 r1.2 h1a
          cases e2 : blankBlock tn fn c col failAt errMsg r1.1 r1.2 with
          | error fs => simp only [e1]; simpa [blockFindings, e2] using h2
          | ok r2 =>
            have h2a : ∀ f ∈ r2.2, fieldFindingOK tn fn col codes f := by
              simpa [blockFindings, e2] using h2
            have h3 := emailBlock_findings tn fn c col codes failAt errMsg r2.1 r2.2 h2a
            cases e3 : emailBlock tn fn c col failAt errMsg r2.1 r2.2 with
            | error fs => simp only [e1, e2]; simpa [blockFindings, e3] using h3
            | ok r3 =>
              have h3a : ∀ f ∈ r3.2, fieldFindingOK tn fn col codes f := by
                simpa [blockFindings, e3] using h3
              have h4 := codesBlock_findings tn fn c col codes failAt errMsg r3.1 r3.2 h3a
              cases e4 : codesBlock tn fn c col codes failAt errMsg r3.1 r3.2 with
              | error fs => simp only [e1, e2, e3]; simpa [blockFindings, e4] using h4
              | ok r4 =>
                have h4a : ∀ f ∈ r4.2, fieldFindingOK tn fn col codes f := by
                  simpa [blockFindings, e4] using h4
                have h5 := dupBlock_findings tn fn c col codes failAt errMsg r4.1 r4.2 h4a
                cases e5 : dupBlock tn fn c col failAt errMsg r4.1 r4.2 with
                | error fs => simp only [e1, e2, e3, e4]; simpa [blockFindings, e5] using h5
                | ok r5 =>
                  simp only [e1, e2, e3, e4, e5]
                  simpa [blockFindings, e5] using h5

/-- Findings appended by the null block in an error-free run. -/
def nullOut (tn fn : String) (c : FieldChecks) (col : List (Option String)) : List Finding :=
  if c.null_check then
    if 0 < col.countP (fun v => v.isNone) then
      [⟨tn, fn, "null_check", "FAIL", nullFailMsg (col.countP (fun v => v.isNone)) col.length⟩]
    else [⟨tn, fn, "null_check", "PASS", "No NULL values found"⟩]
  else []

/-- Findings appended by the blank block in an error-free run. -/
def blankOut (tn fn : String) (c : FieldChecks) (col : List (Option String)) : List Finding :=
  if c.blank_check then
    if 0 < col.countP (fun v => v == some "") then
      [⟨tn, fn, "blank_check", "FAIL",
        blankFailMsg (col.countP (fun v => v == some "")) col.length⟩]
    else [⟨tn, fn, "blank_check", "PASS", "No blank values found"⟩]
  else []

/-- Number of invalid emails in the bounded sample. -/
def invalidEmailCount (col : List (Option String)) : Nat :=
  ((((nonNullNonBlank col).take 100).map pyStrip).filter
    (fun e => !is_valid_email e)).length

/-- Findings appended by the email block in an error-free run. -/
def emailOut (tn fn : String) (c : FieldChecks) (col : List (Option String)) : List Finding :=
  if c.email_check then
    if 0 < (nonNullNonBlank col).length then
      if 0 < invalidEmailCount col then
        [⟨tn, fn, "email_check", "FAIL",
          emailFailMsg (invalidEmailCount col) (nonNullNonBlank col).length⟩]
      else [⟨tn, fn, "email_check", "PASS", emailPassMsg (nonNullNonBlank col).length⟩]
    else []
  else []

/-- Number of invalid distinct sampled values of the system codes check. -/
def invalidCodesCount (col : List (Option String)) (codes : List String) : Nat :=
  ((((distinctFirst (nonNullNonBlank col)).take 100).filter
    (fun v => codeInvalid codes v)).map pyStrip).length

/-- Findings appended by the system codes block in an error-free run. -/
def codesOut (tn fn : String) (c : FieldChecks) (col : List (Option String))
    (codes : List String) : List Finding :=
  if c.system_codes_check then
    if 0 < (nonNullNonBlank col).length then
      if 0 < invalidCodesCount col codes then
        [⟨tn, fn, "system_codes_check", "FAIL",
          if codes.isEmpty then
            codesFailMsg (invalidCodesCount col codes) (nonNullNonBlank col).length
          else codesFailMsg (invalidCodesCount col codes) (nonNullNonBlank col).length
            ++ codesSuffixMsg codes.length⟩]
      else [⟨tn, fn, "system_codes_check", "PASS",
        codesPassMsg (nonNullNonBlank col).length⟩]
    else []
  else []

/-- Findings appended by the duplicate block in an error-free run. -/
def dupOut (tn fn : String) (c : FieldChecks) (col : List (Option String)) : List Finding :=
  if c.duplicate_check then
    if !(dupGroups (nonNullVals col)).isEmpty then
      [⟨tn, fn, "duplicate_check", "FAIL",
        dupFailMsg (dupTotal (nonNullVals col)) (dupGroups (nonNullVals col)).length⟩]
    else [⟨tn, fn, "duplicate_check", "PASS", "No duplicate values found"⟩]
  else []

theorem nullBlock_none (tn fn : String) (c : FieldChecks) (col : List (Option String))
    (errMsg : String) (k : Nat) (acc : List Finding) :
    ∃ k₂, nullBlock tn fn c col none errMsg k acc = .ok (k₂, acc ++ nullOut tn fn c col) := by
  cases hc : c.null_check
  · exact ⟨k, by simp [nullBlock, nullOut, hc]⟩
  · refine ⟨k + 1, ?_⟩
    simp [nullBlock, nullOut, hc]
    split <;> rfl

theorem blankBlock_none (tn fn : String) (c : FieldChecks) (col : List (Option String))
    (errMsg : String) (k : Nat) (acc : List Finding) :
    ∃ k₂, blankBlock tn fn c col none errMsg k acc = .ok (k₂, acc ++ blankOut tn fn c col) := by
  cases hc : c.blank_check
  · exact ⟨k, by simp [blankBlock, blankOut, hc]⟩
  · refine ⟨k + 1, ?_⟩
    simp [blankBlock, blankOut, hc]
    split <;> rfl

theorem emailBlock_none (tn fn : String) (c : FieldChecks) (col : List (Option String))
    (errMsg : String) (k : Nat) (acc : List Finding) :
    ∃ k₂, emailBlock tn fn c col none errMsg k acc = .ok (k₂, acc ++ emailOut tn fn c col) := by
  cases hc : c.email_check
  · exact ⟨k, by simp [emailBlock, emailOut, hc]⟩
  · refine ⟨if 0 < (nonNullNonBlank col).length then k + 2 else k + 1, ?_⟩
    simp [emailBlock, emailOut, invalidEmailCount, hc]
    split
    · split <;> rfl
    · simp

theorem codesBlock_none (tn fn : String) (c : FieldChecks) (col : List (Option String))
    (codes : List String) (errMsg : String) (k : Nat) (acc : List Finding) :
    ∃ k₂, codesBlock tn fn c col codes none errMsg k acc =
      .ok (k₂, acc ++ codesOut tn fn c col codes) := by
  cases hc : c.system_codes_check
  · exact ⟨k, by simp [codesBlock, codesOut, hc]⟩
  · refine ⟨if 0 < (nonNullNonBlank col).length then k + 2 else k + 1, ?_⟩
    simp [codesBlock, codesOut, invalidCodesCount, hc]
    split
    · split <;> rfl
    · simp

theorem dupBlock_none (tn fn : String) (c : FieldChecks) (col : List (Option String))
    (errMsg : String) (k : Nat) (acc : List Finding) :
    ∃ k₂, dupBlock tn fn c col none errMsg k acc = .ok (k₂, acc ++ dupOut tn fn c col) := by
  cases hc : c.duplicate_check
  · exact ⟨k, by simp [dupBlock, dupOut, hc]⟩
  · refine ⟨k + 1, ?_⟩
    simp [dupBlock, dupOut, hc]
    split <;> rfl

/-- Decomposition of an error-free `_run_field_checks` over an existing
column of a non-empty table into the five per-check contribution lists, in
source order. -/
theorem run_field_checks_none (tn fn : String) (c : FieldChecks)
    (colIntro : Except String (List String)) (col : List (Option String))
    (errMsg : String) (codes : List String)
    (hcol : column_exists colIntro fn = true) (hrows : col ≠ []) :
    run_field_checks tn fn c colIntro col none errMsg codes =
      nullOut tn fn c col ++ blankOut tn fn c col ++ emailOut tn fn c col
        ++ codesOut tn fn c col codes ++ dupOut tn fn c col := by
  obtain ⟨k1, h1⟩ := nullBlock_none tn fn c col errMsg 1 []
  obtain ⟨k2, h2⟩ := blankBlock_none tn fn c col errMsg k1 ([] ++ nullOut tn fn c col)
  obtain ⟨k3, h3⟩ := emailBlock_none tn fn c col errMsg k2
    ([] ++ nullOut tn fn c col ++ blankOut tn fn c col)
  obtain ⟨k4, h4⟩ := codesBlock_none tn fn c col codes errMsg k3
    ([] ++ nullOut tn fn c col ++ blankOut tn fn c col ++ emailOut tn fn c col)
  obtain ⟨k5, h5⟩ := dupBlock_none tn fn c col errMsg k4
    ([] ++ nullOut tn fn c col ++ blankOut tn fn c col ++ emailOut tn fn c col
      ++ codesOut tn fn c col codes)
  have hlen : (col.length == 0) = false := by
    simp only [beq_eq_false_iff_ne, ne_eq, List.length_eq_zero]
    exact hrows
  unfold run_field_checks
  rw [hcol, hlen, h1]
  dsimp only
  rw [h2]
  dsimp only
  rw [h3]
  dsimp only
  rw [h4]
  dsimp only
  rw [h5]
  simp

theorem nullOut_length (tn fn : String) (c : FieldChecks) (col : List (Option String)) :
    (nullOut tn fn c col).length = if c.null_check then 1 else 0 := by
  unfold nullOut
  split
  · split <;> rfl
  · rfl

theorem blankOut_length (tn fn : String) (c : FieldChecks) (col : List (Option String)) :
    (blankOut tn fn c col).length = if c.blank_check then 1 else 0 := by
  unfold blankOut
  split
  · split <;> rfl
  · rfl

theorem emailOut_length (tn fn : String) (c : FieldChecks) (col : List (Option String)) :
    (emailOut tn fn c col).length =
      if c.email_check ∧ 0 < (nonNullNonBlank col).length then 1 else 0 := by
  unfold emailOut
  split
  case isTrue hc =>
    split
    case isTrue hnn =>
      have hcond : c.email_check = true ∧ 0 < (nonNullNonBlank col).length := ⟨hc, hnn⟩
      rw [if_pos hcond]
      split <;> rfl
    case isFalse hnn =>
      rw [if_neg (fun h => hnn h.2)]
      rfl
  case isFalse hc =>
    rw [if_neg (fun h => hc h.1)]
    rfl

theorem codesOut_length (tn fn : String) (c : FieldChecks) (col : List (Option String))
    (codes : List String) :
    (codesOut tn fn c col codes).length =
      if c.system_codes_check ∧ 0 < (nonNullNonBlank col).length then 1 else 0 := by
  unfold codesOut
  split
  case isTrue hc =>
    split
    case isTrue hnn =>
      have hcond : c.system_codes_check = true ∧ 0 < (nonNullNonBlank col).length := ⟨hc, hnn⟩
      rw [if_pos hcond]
      split <;> rfl
    case isFalse hnn =>
      rw [if_neg (fun h => hnn h.2)]
      rfl
  case isFalse hc =>
    rw [if_neg (fun h => hc h.1)]
    rfl

theorem dupOut_length (tn fn : String) (c : FieldChecks) (col : List (Option String)) :
    (dupOut tn fn c col).length = if c.duplicate_check then 1 else 0 := by
  unfold dupOut
  split
  · split <;> rfl
  · rfl

theorem nullBlock_congr {tn fn : String} {c c' : FieldChecks} {col : List (Option String)}
    {failAt : Option Nat} {errMsg : String} {k : Nat} {acc : List Finding}
    (h : c'.null_check = c.null_check) :
    nullBlock tn fn c' col failAt errMsg k acc = nullBlock tn fn c col failAt errMsg k acc := by
  unfold nullBlock
  rw [h]

theorem blankBlock_congr {tn fn : String} {c c' : FieldChecks} {col : List (Option String)}
    {failAt : Option Nat} {errMsg : String} {k : Nat} {acc : List Finding}
    (h : c'.blank_check = c.blank_check) :
    blankBlock tn fn c' col failAt errMsg k acc = blankBlock tn fn c col failAt errMsg k acc := by
  unfold blankBlock
  rw [h]

theorem emailBlock_congr {tn fn : String} {c c' : FieldChecks} {col : List (Option String)}
    {failAt : Option Nat} {errMsg : String} {k : Nat} {acc : List Finding}
    (h : c'.email_check = c.email_check) :
    emailBlock tn fn c' col failAt errMsg k acc = emailBlock tn fn c col failAt errMsg k acc := by
  unfold emailBlock
  rw [h]

theorem codesBlock_congr {tn fn : String} {c c' : FieldChecks} {col : List (Option String)}
    {codes : List String} {failAt : Option Nat} {errMsg : String} {k : Nat} {acc : List Finding}
    (h : c'.system_codes_check = c.system_codes_check) :
    codesBlock tn fn c' col codes failAt errMsg k acc =
      codesBlock tn fn c col codes failAt errMsg k acc := by
  unfold codesBlock
  rw [h]

theorem dupBlock_congr {tn fn : String} {c c' : FieldChecks} {col : List (Option String)}
    {failAt : Option Nat} {errMsg : String} {k : Nat} {acc : List Finding}
    (h : c'.duplicate_check = c.duplicate_check) :
    dupBlock tn fn c' col failAt errMsg k acc = dupBlock tn fn c col failAt errMsg k acc := by
  unfold dupBlock
  rw [h]

/-- The dispatcher reads only the five implemented flags: two configurations
agreeing on them produce identical findings, whatever the other eight flags
say. -/
theorem run_field_checks_congr (tn fn : String) (c c' : FieldChecks)
    (colIntro : Except String (List String)) (col : List (Option String))
    (failAt : Option Nat) (errMsg : String) (codes : List String)
    (h1 : c'.null_check = c.null_check) (h2 : c'.blank_check = c.blank_check)
    (h3 : c'.email_check = c.email_check)
    (h4 : c'.system_codes_check = c.system_codes_check)
    (h5 : c'.duplicate_check = c.duplicate_check) :
    run_field_checks tn fn c' colIntro col failAt errMsg codes =
      run_field_checks tn fn c colIntro col failAt errMsg codes := by
  unfold run_field_checks
  simp only [nullBlock_congr h1, blankBlock_congr h2, emailBlock_congr h3,
    codesBlock_congr h4, dupBlock_congr h5]

/-! ### Claim theorems -/

/-- C1 counterexample: with the numeric, language, phone, date and
special-characters checks all enabled on an existing column of a non-empty
table, `_run_field_checks` emits no Finding at all, refuting the claim that
each of these enabled checks produces a Finding (only the three max-value,
min-value and max-count flags were claimed inert). -/
theorem c1_counterexample :
    run_field_checks "t" "f"
      { noChecks with
        numeric_check := true
        language_check := true
        phone_number_check := true
        date_check := true
        special_characters_check := true }
      (.ok ["f"]) [some "x"] none "" [] = [] := by rfl

/-- C1 amended: on an existing column of a non-empty error-free table,
exactly the enabled null, blank and duplicate checks emit one Finding each,
the enabled email and system codes checks emit one Finding each when the
non-null non-blank count is positive, and the remaining eight flags (numeric,
language, phone, date, special-characters, max-value, min-value, max-count)
are loaded but never evaluated: the emitted findings do not depend on them. -/
theorem c1_amended (tn fn : String) (c : FieldChecks)
    (colIntro : Except String (List String)) (col : List (Option String))
    (errMsg : String) (codes : List String)
    (hcol : column_exists colIntro fn = true) (hrows : col ≠ []) :
    (run_field_checks tn fn c colIntro col none errMsg codes).length =
      ((if c.null_check then 1 else 0) + (if c.blank_check then 1 else 0) +
        (if c.email_check ∧ 0 < (nonNullNonBlank col).length then 1 else 0) +
        (if c.system_codes_check ∧ 0 < (nonNullNonBlank col).length then 1 else 0) +
        (if c.duplicate_check then 1 else 0)) ∧
    (∀ c' : FieldChecks, c'.null_check = c.null_check → c'.blank_check = c.blank_check →
      c'.email_check = c.email_check → c'.system_codes_check = c.system_codes_check →
      c'.duplicate_check = c.duplicate_check →
      ∀ failAt : Option Nat,
        run_field_checks tn fn c' colIntro col failAt errMsg codes =
          run_field_checks tn fn c colIntro col failAt errMsg codes) := by
  constructor
  · rw [run_field_checks_none tn fn c colIntro col errMsg codes hcol hrows]
    simp only [List.length_append, nullOut_length, blankOut_length, emailOut_length,
      codesOut_length, dupOut_length]
  · intro c' h1 h2 h3 h4 h5 failAt
    exact run_field_checks_congr tn fn c c' colIntro col failAt errMsg codes h1 h2 h3 h4 h5

theorem c1_amended_witness :
    (run_field_checks "t" "f" { noChecks with null_check := true }
      (.ok ["f"]) [some "x"] none "" []).length = 1 ∧
    run_field_checks "t" "f" { noChecks with null_check := true, numeric_check := true }
        (.ok ["f"]) [some "x"] none "" [] =
      run_field_checks "t" "f" { noChecks with null_check := true }
        (.ok ["f"]) [some "x"] none "" [] := by
  constructor
  · rw [(c1_amended "t" "f" { noChecks with null_check := true } (.ok ["f"]) [some "x"]
      "" [] (by decide) (by decide)).1]
    decide
  · exact (c1_amended "t" "f" { noChecks with null_check := true } (.ok ["f"]) [some "x"]
      "" [] (by decide) (by decide)).2
      { noChecks with null_check := true, numeric_check := true } rfl rfl rfl rfl rfl none

/-- C3 counterexample: a genuine query failure during column introspection is
swallowed inside `_column_exists` (which returns false) and surfaces as a
`column_existence` FAIL Finding, not as a propagated error turned into a
`database_error` ERROR Finding. -/
theorem c3_counterexample :
    column_exists (.error "disk I/O error") "email" = false ∧
    run_field_checks "users" "email" noChecks (.error "disk I/O error") [some "x"]
        none "disk I/O error" [] =
      [⟨"users", "email", "column_existence", "FAIL", colMissingMsg "users" "email"⟩] ∧
    ("column_existence" : String) ≠ "database_error" ∧ ("FAIL" : String) ≠ "ERROR" :=
  ⟨rfl, rfl, by decide, by decide⟩

/-- C3 amended: `_table_exists` and `_column_exists` return false both when
the table or column is merely absent and when the introspection query fails —
the `sqlite3.Error` is caught inside them, not propagated — so an erroring
introspection makes the dispatcher emit a `column_existence` FAIL Finding
rather than an ERROR Finding. -/
theorem c3_amended :
    (∀ cols cn, cn ∉ cols → column_exists (.ok cols) cn = false) ∧
    table_exists (.ok none) = false ∧
    (∀ e, table_exists (.error e) = false) ∧
    (∀ e cn, column_exists (.error e) cn = false) ∧
    (∀ tn fn c col failAt errMsg codes e,
      run_field_checks tn fn c (.error e) col failAt errMsg codes =
        [⟨tn, fn, "column_existence", "FAIL", colMissingMsg tn fn⟩]) := by
  refine ⟨?_, rfl, fun e => rfl, fun e cn => rfl, fun tn fn c col failAt errMsg codes e => rfl⟩
  intro cols cn h
  simpa [column_exists] using h

theorem c3_amended_witness :
    column_exists (.ok ["customer_id", "name"]) "email" = false :=
  c3_amended.1 ["customer_id", "name"] "email" (by decide)

/-- C6: a configured field whose column does not exist yields exactly one
`column_existence` FAIL Finding and nothing else; otherwise a table with zero
rows (and an error-free count query) yields exactly one `data_existence`
WARNING Finding and processing stops. -/
theorem c6_existence_gates (tn fn : String) (c : FieldChecks)
    (colIntro : Except String (List String)) (col : List (Option String))
    (failAt : Option Nat) (errMsg : String) (codes : List String) :
    (column_exists colIntro fn = false →
      run_field_checks tn fn c colIntro col failAt errMsg codes =
        [⟨tn, fn, "column_existence", "FAIL", colMissingMsg tn fn⟩]) ∧
    (column_exists colIntro fn = true → failAt ≠ some 0 → col = [] →
      run_field_checks tn fn c colIntro col failAt errMsg codes =
        [⟨tn, fn, "data_existence", "WARNING", noDataMsg tn⟩]) := by
  constructor
  · intro h
    simp [run_field_checks, h]
  · intro h hf hcol
    subst hcol
    simp [run_field_checks, h, hf]

theorem c6_existence_gates_witness :
    run_field_checks "users" "email" noChecks (.ok []) [some "x"] none "" [] =
      [⟨"users", "email", "column_existence", "FAIL", colMissingMsg "users" "email"⟩] ∧
    run_field_checks "users" "email" noChecks (.ok ["email"]) [] none "" [] =
      [⟨"users", "email", "data_existence", "WARNING", noDataMsg "users"⟩] :=
  ⟨(c6_existence_gates "users" "email" noChecks (.ok []) [some "x"] none "" []).1 (by decide),
   (c6_existence_gates "users" "email" noChecks (.ok ["email"]) [] none "" []).2 (by decide)
     (by decide) rfl⟩

/-- C7: when the count of non-null non-blank values of the column is zero,
the email and system codes checks are skipped entirely: no Finding with
either check type is emitted, whatever else happens during the run. -/
theorem c7_skip_empty_sample (tn fn : String) (c : FieldChecks)
    (colIntro : Except String (List String)) (col : List (Option String))
    (failAt : Option Nat) (errMsg : String) (codes : List String)
    (h : (nonNullNonBlank col).length = 0) :
    ∀ f ∈ run_field_checks tn fn c colIntro col failAt errMsg codes,
      f.check_type ≠ "email_check" ∧ f.check_type ≠ "system_codes_check" := by
  intro f hf
  obtain ⟨-, -, -, -, hemail, -⟩ :=
    run_field_checks_mem tn fn c colIntro col failAt errMsg codes f hf
  constructor
  · intro hct
    have := hemail (Or.inl hct)
    omega
  · intro hct
    have := hemail (Or.inr hct)
    omega

theorem c7_skip_empty_sample_witness :
    (⟨"t", "f", "null_check", "PASS", "No NULL values found"⟩ : Finding).check_type ≠
        "email_check" ∧
    (⟨"t", "f", "null_check", "PASS", "No NULL values found"⟩ : Finding).check_type ≠
        "system_codes_check" :=
  c7_skip_empty_sample "t" "f"
    { noChecks with null_check := true, email_check := true, system_codes_check := true }
    (.ok ["f"]) [some ""] none "" [] (by decide)
    ⟨"t", "f", "null_check", "PASS", "No NULL values found"⟩ (by decide)

theorem dictGet_map_overwrite_ne {β : Type} (k k₂ : String) (v : β) (h : k ≠ k₂) :
    ∀ m : List (String × β),
      dictGet (m.map (fun p => if p.1 == k then (k, v) else p)) k₂ = dictGet m k₂ := by
  intro m
  induction m with
  | nil => rfl
  | cons p rest ih =>
    simp only [List.map_cons]
    by_cases hp : p.1 = k
    · have hk : ((k, v).1 == k₂) = false := by simp [h]
      have hp₂ : (p.1 == k₂) = false := by simp [hp, h]
      simp only [dictGet, List.find?, if_pos (beq_iff_eq.2 hp), hk, hp₂] at ih ⊢
      exact ih
    · have hpk : (p.1 == k) = false := by simp [hp]
      simp only [dictGet, List.find?, hpk, Bool.false_eq_true, if_false] at ih ⊢
      by_cases hq : p.1 = k₂
      · simp [hq]
      · have hq₂ : (p.1 == k₂) = false := by simp [hq]
        simp only [hq₂] at ih ⊢
        exact ih

theorem dictGet_dictInsert_ne {β : Type} (m : List (String × β)) (k k₂ : String) (v : β)
    (h : k ≠ k₂) : dictGet (dictInsert m k v) k₂ = dictGet m k₂ := by
  unfold dictInsert
  split
  · exact dictGet_map_overwrite_ne k k₂ v h m
  · unfold dictGet
    rw [List.find?_append]
    have hone : List.find? (fun p => p.1 == k₂) [(k, v)] = none := by
      simp [h]
    rw [hone]
    simp

/-- Trimmed table names named by the rows of a checks source. -/
def rowTables (rows : List Row) : List String :=
  rows.filterMap (fun r => (rowGet r "table_name").map pyStrip)

theorem loadChecksRows_preserve (rows : List Row) :
    ∀ (cfg : ChecksCfg) (t : String), t ∉ rowTables rows →
      dictGet (loadChecksRows cfg rows).2 t = dictGet cfg t := by
  induction rows with
  | nil =>
    intro cfg t h
    rfl
  | cons r rest ih =>
    intro cfg t h
    cases hg : rowGet r "table_name" with
    | none =>
      have hrest : t ∉ rowTables rest := by
        intro hx
        exact h (by simp [rowTables, List.filterMap_cons, hg] at hx ⊢; exact hx)
      simp only [loadChecksRows, hg]
    | some t0 =>
      have hin : rowTables (r :: rest) = pyStrip t0 :: rowTables rest := by
        simp [rowTables, List.filterMap_cons, hg]
      rw [hin] at h
      have ht : t ≠ pyStrip t0 := fun hx => h (hx ▸ List.mem_cons_self _ _)
      have hrest : t ∉ rowTables rest := fun hx => h (List.mem_cons_of_mem _ hx)
      cases hf : rowGet r "field_name" with
      | none => simp only [loadChecksRows, hg, hf]
      | some f0 =>
        have hcfg1 : ∀ cfg₀ : ChecksCfg,
            dictGet (if dictGet cfg₀ (pyStrip t0) == none then dictInsert cfg₀ (pyStrip t0) []
              else cfg₀) t = dictGet cfg₀ t := by
          intro cfg₀
          split
          · exact dictGet_dictInsert_ne cfg₀ (pyStrip t0) t [] (Ne.symm ht)
          · rfl
        cases hb : buildFieldChecks r with
        | none =>
          simp only [loadChecksRows, hg, hf, hb]
          exact hcfg1 cfg
        | some fc =>
          simp only [loadChecksRows, hg, hf, hb]
          rw [ih _ t hrest, dictGet_dictInsert_ne _ (pyStrip t0) t _ (Ne.symm ht)]
          exact hcfg1 cfg

/-- C2 counterexample: loading a code-list source whose rows are missing the
`valid_codes` column fails (returns false), yet the previously loaded
CodeList is not left unchanged — it has already been cleared before the rows
were read. -/
theorem c2_counterexample :
    (load_system_codes_config [("t", [("f", ["A"])])]
        [[("table_name", "t"), ("field_name", "f")]]).1 = false ∧
    (load_system_codes_config [("t", [("f", ["A"])])]
        [[("table_name", "t"), ("field_name", "f")]]).2 = [] ∧
    ([] : CodesCfg) ≠ [("t", [("f", ["A"])])] :=
  ⟨rfl, rfl, by decide⟩

/-- C2 amended: neither load is atomic in the claimed sense.
`load_system_codes_config` discards the previous CodeList up front, so its
outcome never depends on the old value (wholesale rebuild) and a failed load
leaves the cleared, partially rebuilt dict rather than the old one;
`load_checks_config` merges rows into the existing RuleSet in place, so
entries of tables not named by the new rows always survive (no wholesale
replacement), and a failed load keeps the rows already processed. -/
theorem c2_amended :
    (∀ (old : CodesCfg) (rows : List Row),
      load_system_codes_config old rows = load_system_codes_config [] rows) ∧
    (∀ (old : ChecksCfg) (rows : List Row) (t : String), t ∉ rowTables rows →
      dictGet (load_checks_config old rows).2 t = dictGet old t) :=
  ⟨fun _ _ => rfl, fun old rows t h => loadChecksRows_preserve rows old t h⟩

theorem c2_amended_witness :
    load_system_codes_config [("t", [("f", ["A"])])] [] = load_system_codes_config [] [] ∧
    dictGet (load_checks_config [("told", [("g", noChecks)])]
        [[("table_name", "t2"), ("field_name", "g2")]]).2 "told" =
      dictGet [("told", [("g", noChecks)])] "told" :=
  ⟨c2_amended.1 [("t", [("f", ["A"])])] [],
   c2_amended.2 [("told", [("g", noChecks)])] [[("table_name", "t2"), ("field_name", "g2")]]
     "told" (by decide)⟩

/-- C8: the system codes membership test accepts an observed value iff no
codes are declared or its trimmed upper-cased form equals the upper-cased
form of some declared code; the outcome is invariant under letter-case
changes of declared codes and observed values; the codes AB and cd accept the
observed values ab and CD; and for a field with the check enabled but no
codes declared every emitted system codes Finding is a PASS. -/
theorem c8_codes_case_insensitive :
    (∀ (codes : List String) (v : String), codeInvalid codes v = false ↔
      (codes = [] ∨ pyUpper (pyStrip v) ∈ codes.map pyUpper)) ∧
    (∀ (codes₁ codes₂ : List String) (v₁ v₂ : String),
      codes₁.map pyUpper = codes₂.map pyUpper →
      pyUpper (pyStrip v₁) = pyUpper (pyStrip v₂) →
      codeInvalid codes₁ v₁ = codeInvalid codes₂ v₂) ∧
    (codeInvalid ["AB", "cd"] "ab" = false ∧ codeInvalid ["AB", "cd"] "CD" = false) ∧
    (∀ tn fn c colIntro col failAt errMsg f,
      f ∈ run_field_checks tn fn c colIntro col failAt errMsg [] →
      f.check_type = "system_codes_check" → f.status = "PASS") := by
  refine ⟨?_, ?_, ⟨by decide, by decide⟩, ?_⟩
  · intro codes v
    cases codes with
    | nil => simp [codeInvalid]
    | cons c₀ cs =>
      simp only [codeInvalid]
      simp
      exact (or_iff_not_imp_left).symm
  · intro codes₁ codes₂ v₁ v₂ hc hv
    have hemp : codes₁.isEmpty = codes₂.isEmpty := by
      cases codes₁ <;> cases codes₂ <;> simp_all
    unfold codeInvalid
    rw [hv, hc, hemp]
  · intro tn fn c colIntro col failAt errMsg f hf hct
    obtain ⟨-, -, -, -, -, hpass⟩ :=
      run_field_checks_mem tn fn c colIntro col failAt errMsg [] f hf
    exact hpass hct rfl

theorem c8_codes_case_insensitive_witness :
    codeInvalid ["AB", "cd"] "aB" = codeInvalid ["ab", "CD"] " ab " :=
  c8_codes_case_insensitive.2.1 ["AB", "cd"] ["ab", "CD"] "aB" " ab " (by decide) (by decide)

/-- Modelled from the claim wording only, for comparison with the source:
keep the digits of the string plus the plus sign only when it is the leading
character. -/
def phoneClaimClean (s : String) : List Char :=
  match s.data with
  | '+' :: rest => '+' :: rest.filter Char.isDigit
  | l => l.filter Char.isDigit

/-- Shape of the phone pattern as the spec words it: an optional leading
plus, a first significant digit 1 to 9, followed by 9 to 14 more digits. -/
def phoneSpecShape (l : List Char) : Prop :=
  ∃ opt c ds, l = opt ++ c :: ds ∧ (opt = [] ∨ opt = ['+']) ∧
    '1' ≤ c ∧ c ≤ '9' ∧ (∀ d ∈ ds, d.isDigit = true) ∧ 9 ≤ ds.length ∧ ds.length ≤ 14

theorem matchPhoneTail_iff (l : List Char) :
    matchPhoneTail l = true ↔ ∃ c ds, l = c :: ds ∧ '1' ≤ c ∧ c ≤ '9' ∧
      (∀ d ∈ ds, d.isDigit = true) ∧ 9 ≤ ds.length ∧ ds.length ≤ 14 := by
  cases l with
  | nil =>
    constructor
    · intro h
      simp [matchPhoneTail] at h
    · rintro ⟨c, ds, h, -⟩
      cases h
  | cons c ds =>
    constructor
    · intro h
      simp only [matchPhoneTail, Bool.and_eq_true, decide_eq_true_eq,
        List.all_eq_true] at h
      obtain ⟨⟨⟨⟨h1, h2⟩, h3⟩, h4⟩, h5⟩ := h
      exact ⟨c, ds, rfl, h1, h2, fun d hd => h3 d hd, h4, h5⟩
    · rintro ⟨c', ds', heq, h1, h2, h3, h4, h5⟩
      injection heq with e1 e2
      subst e1
      subst e2
      simp only [matchPhoneTail, Bool.and_eq_true, decide_eq_true_eq, List.all_eq_true]
      exact ⟨⟨⟨⟨h1, h2⟩, fun d hd => h3 d hd⟩, h4⟩, h5⟩

theorem matchPhonePattern_iff (l : List Char) :
    matchPhonePattern l = true ↔ phoneSpecShape l := by
  unfold phoneSpecShape
  constructor
  · intro h
    unfold matchPhonePattern at h
    split at h
    · obtain ⟨c', ds, heq, h1, h2, h3, h4, h5⟩ := (matchPhoneTail_iff _).1 h
      exact ⟨['+'], c', ds, by rw [heq]; rfl, Or.inr rfl, h1, h2, h3, h4, h5⟩
    · obtain ⟨c', ds, heq, h1, h2, h3, h4, h5⟩ := (matchPhoneTail_iff _).1 h
      exact ⟨[], c', ds, by rw [heq]; rfl, Or.inl rfl, h1, h2, h3, h4, h5⟩
  · rintro ⟨opt, c, ds, heq, hopt, h1, h2, h3, h4, h5⟩
    rcases hopt with rfl | rfl
    · simp only [List.nil_append] at heq
      subst heq
      unfold matchPhonePattern
      split
      case h_1 rest heq2 =>
        injection heq2 with e1 e2
        exact absurd (e1 ▸ h1) (by decide)
      case h_2 =>
        exact (matchPhoneTail_iff _).2 ⟨c, ds, rfl, h1, h2, h3, h4, h5⟩
    · have heq2 : l = '+' :: c :: ds := by simpa using heq
      subst heq2
      unfold matchPhonePattern
      split
      case h_1 rest heq3 =>
        injection heq3 with e1 e2
        subst e2
        exact (matchPhoneTail_iff _).2 ⟨c, ds, rfl, h1, h2, h3, h4, h5⟩
      case h_2 hne =>
        exact absurd rfl (hne (c :: ds))

/-- C9 counterexample: on the input 1+2345678901 the code returns false (the
regex substitution keeps the interior plus sign, which then breaks the digit
pattern), while the claim-side cleaning — digits plus only a leading plus —
yields 12345678901, which has length 11 and matches the pattern, so the
claimed equivalence fails. -/
theorem c9_counterexample :
    is_valid_phone "1+2345678901" = false ∧
    (10 ≤ (phoneClaimClean "1+2345678901").length ∧
      (phoneClaimClean "1+2345678901").length ≤ 15 ∧
      phoneSpecShape (phoneClaimClean "1+2345678901")) := by
  refine ⟨by decide, by decide, by decide, ?_⟩
  exact ⟨[], '1', ['2', '3', '4', '5', '6', '7', '8', '9', '0', '1'], by decide,
    Or.inl rfl, by decide, by decide, by decide, by decide, by decide⟩

/-- C9 amended: `_is_valid_phone s` is true iff removing every character of
`s` except digits and plus signs (every plus is kept, not only a leading one)
yields a character sequence of length within 10 to 15 that matches the
international-style pattern: an optional leading plus, a first significant
digit 1 to 9, followed by 9 to 14 more digits. -/
theorem c9_amended (s : String) :
    is_valid_phone s = true ↔
      (10 ≤ (phoneClean s).length ∧ (phoneClean s).length ≤ 15 ∧
        phoneSpecShape (phoneClean s)) := by
  unfold is_valid_phone
  by_cases hlo : (phoneClean s).length < 10
  · rw [if_pos (by simp [hlo])]
    constructor
    · intro h
      cases h
    · rintro ⟨h, -⟩
      omega
  · by_cases hhi : 15 < (phoneClean s).length
    · rw [if_pos (by simp [hhi])]
      constructor
      · intro h
        cases h
      · rintro ⟨-, h, -⟩
        omega
    · rw [if_neg (by simp [hlo, hhi])]
      rw [matchPhonePattern_iff]
      constructor
      · intro h
        exact ⟨by omega, by omega, h⟩
      · rintro ⟨-, -, h⟩
        exact h

theorem distinctAux_mem (v : String) : ∀ (l seen : List String),
    v ∈ distinctAux seen l ↔ (v ∈ l ∧ v ∉ seen) := by
  intro l
  induction l with
  | nil =>
    intro seen
    simp [distinctAux]
  | cons x xs ih =>
    intro seen
    unfold distinctAux
    by_cases hx : seen.contains x
    · have hxmem : x ∈ seen := by simpa using hx
      rw [if_pos hx, ih seen]
      constructor
      · rintro ⟨hv, hs⟩
        exact ⟨List.mem_cons_of_mem _ hv, hs⟩
      · rintro ⟨hv, hs⟩
        rcases List.mem_cons.1 hv with rfl | hv
        · exact absurd hxmem hs
        · exact ⟨hv, hs⟩
    · have hxnot : x ∉ seen := by simpa using hx
      rw [if_neg hx]
      constructor
      · intro hv
        rcases List.mem_cons.1 hv with rfl | hv
        · exact ⟨List.mem_cons_self _ _, hxnot⟩
        · obtain ⟨h1, h2⟩ := (ih (x :: seen)).1 hv
          exact ⟨List.mem_cons_of_mem _ h1, fun hs => h2 (List.mem_cons_of_mem _ hs)⟩
      · rintro ⟨hv, hs⟩
        rcases List.mem_cons.1 hv with rfl | hv
        · exact List.mem_cons_self _ _
        · by_cases hvx : v = x
          · subst hvx
            exact List.mem_cons_self _ _
          · refine List.mem_cons_of_mem _ ((ih (x :: seen)).2 ⟨hv, ?_⟩)
            intro hmem
            rcases List.mem_cons.1 hmem with h | h
            · exact hvx h
            · exact hs h

theorem distinctAux_nodup : ∀ (l seen : List String), (distinctAux seen l).Nodup := by
  intro l
  induction l with
  | nil =>
    intro seen
    simp [distinctAux]
  | cons x xs ih =>
    intro seen
    unfold distinctAux
    by_cases hx : seen.contains x
    · rw [if_pos hx]
      exact ih seen
    · rw [if_neg hx]
      refine List.nodup_cons.2 ⟨?_, ih (x :: seen)⟩
      intro hmem
      obtain ⟨-, hns⟩ := (distinctAux_mem x xs (x :: seen)).1 hmem
      exact hns (List.mem_cons_self _ _)

theorem distinctFirst_mem (v : String) (l : List String) :
    v ∈ distinctFirst l ↔ v ∈ l := by
  unfold distinctFirst
  rw [distinctAux_mem]
  simp

theorem distinctFirst_nodup (l : List String) : (distinctFirst l).Nodup :=
  distinctAux_nodup l []

theorem distinctFirst_perm_dedup (l : List String) : (distinctFirst l).Perm l.dedup :=
  (List.perm_ext_iff_of_nodup (distinctFirst_nodup l) l.nodup_dedup).2
    (fun a => by rw [distinctFirst_mem, List.mem_dedup])

theorem sum_counts_distinctFirst (l : List String) :
    ((distinctFirst l).map (fun v => l.count v)).sum = l.length := by
  rw [((distinctFirst_perm_dedup l).map (fun v => l.count v)).sum_eq]
  exact List.sum_map_count_dedup_eq_length l

theorem length_le_sum_map {α : Type} (c : α → Nat) : ∀ dl : List α,
    (∀ v ∈ dl, 1 ≤ c v) → dl.length ≤ (dl.map c).sum := by
  intro dl
  induction dl with
  | nil => simp
  | cons v rest ih =>
    intro h
    simp only [List.map_cons, List.sum_cons, List.length_cons]
    have h1 := h v (List.mem_cons_self _ _)
    have h2 := ih (fun w hw => h w (List.mem_cons_of_mem _ hw))
    omega

theorem sum_map_sub_one {α : Type} (c : α → Nat) : ∀ dl : List α,
    (∀ v ∈ dl, 1 ≤ c v) →
      (dl.map (fun v => c v - 1)).sum = (dl.map c).sum - dl.length := by
  intro dl
  induction dl with
  | nil => simp
  | cons v rest ih =>
    intro h
    simp only [List.map_cons, List.sum_cons, List.length_cons]
    have h1 := h v (List.mem_cons_self _ _)
    have h2 := ih (fun w hw => h w (List.mem_cons_of_mem _ hw))
    have h3 := length_le_sum_map c rest (fun w hw => h w (List.mem_cons_of_mem _ hw))
    omega

theorem sum_map_filter_eq {α : Type} (f : α → Nat) (p : α → Bool) : ∀ gs : List α,
    (∀ g ∈ gs, p g = false → f g = 0) →
      ((gs.filter p).map f).sum = (gs.map f).sum := by
  intro gs
  induction gs with
  | nil => simp
  | cons g rest ih =>
    intro h
    have hrest := ih (fun g₂ hg => h g₂ (List.mem_cons_of_mem _ hg))
    by_cases hp : p g = true
    · simp [List.filter_cons, hp, hrest]
    · have hz := h g (List.mem_cons_self _ _) (by simpa using hp)
      simp [List.filter_cons, hp, hz, hrest]

/-- The reported duplicate total — the sum of count minus one over all
groups with more than one occurrence — equals the number of non-null rows
minus the number of distinct non-null values. -/
theorem dupTotal_eq (l : List String) :
    dupTotal l = l.length - (distinctFirst l).length := by
  unfold dupTotal dupGroups
  have hz : ∀ g ∈ (distinctFirst l).map (fun v => (v, l.count v)),
      (decide (1 < g.2)) = false → g.2 - 1 = 0 := by
    intro g _ hp
    have h1 : ¬ 1 < g.2 := by simpa using hp
    omega
  rw [sum_map_filter_eq _ _ _ hz, List.map_map]
  have hcomp : ((fun (g : String × Nat) => g.2 - 1) ∘ (fun v => (v, l.count v))) =
      (fun v => l.count v - 1) := rfl
  rw [hcomp]
  have hone : ∀ v ∈ distinctFirst l, 1 ≤ l.count v := by
    intro v hv
    exact List.count_pos_iff.2 ((distinctFirst_mem v l).1 hv)
  rw [sum_map_sub_one _ _ hone, sum_counts_distinctFirst]

/-- The duplicate query returns a group iff some non-null value occurs more
than once. -/
theorem dupGroups_ne_nil_iff (l : List String) :
    dupGroups l ≠ [] ↔ ∃ v, 2 ≤ l.count v := by
  unfold dupGroups
  constructor
  · intro h
    obtain ⟨g, hg⟩ := List.exists_mem_of_ne_nil _ h
    obtain ⟨hmap, hcnt⟩ := List.mem_filter.1 hg
    obtain ⟨v, hv, rfl⟩ := List.mem_map.1 hmap
    refine ⟨v, ?_⟩
    have h1 : 1 < l.count v := by simpa using hcnt
    omega
  · rintro ⟨v, hv⟩ hnil
    have hvl : v ∈ l := List.count_pos_iff.1 (by omega)
    have hvd : v ∈ distinctFirst l := (distinctFirst_mem v l).2 hvl
    have hmm : (v, l.count v) ∈ (distinctFirst l).map (fun v => (v, l.count v)) :=
      List.mem_map_of_mem _ hvd
    have hlt : 1 < l.count v := by omega
    have hfil : (v, l.count v) ∈ ((distinctFirst l).map (fun v => (v, l.count v))).filter
        (fun g => decide (1 < g.2)) :=
      List.mem_filter.2 ⟨hmm, by simpa using hlt⟩
    rw [hnil] at hfil
    exact absurd hfil (List.not_mem_nil _)

theorem nullOut_filter_none (tn fn : String) (c : FieldChecks) (col : List (Option String))
    (p : Finding → Bool) (hp : ∀ st msg, p ⟨tn, fn, "null_check", st, msg⟩ = false) :
    (nullOut tn fn c col).filter p = [] := by
  unfold nullOut
  split
  · split <;> simp [hp]
  · rfl

theorem blankOut_filter_none (tn fn : String) (c : FieldChecks) (col : List (Option String))
    (p : Finding → Bool) (hp : ∀ st msg, p ⟨tn, fn, "blank_check", st, msg⟩ = false) :
    (blankOut tn fn c col).filter p = [] := by
  unfold blankOut
  split
  · split <;> simp [hp]
  · rfl

theorem emailOut_filter_none (tn fn : String) (c : FieldChecks) (col : List (Option String))
    (p : Finding → Bool) (hp : ∀ st msg, p ⟨tn, fn, "email_check", st, msg⟩ = false) :
    (emailOut tn fn c col).filter p = [] := by
  unfold emailOut
  split
  · split
    · split <;> simp [hp]
    · rfl
  · rfl

theorem emailOut_filter_all (tn fn : String) (c : FieldChecks) (col : List (Option String))
    (p : Finding → Bool) (hp : ∀ st msg, p ⟨tn, fn, "email_check", st, msg⟩ = true) :
    (emailOut tn fn c col).filter p = emailOut tn fn c col := by
  unfold emailOut
  split
  · split
    · split <;> simp [hp]
    · rfl
  · rfl

theorem codesOut_filter_none (tn fn : String) (c : FieldChecks) (col : List (Option String))
    (codes : List String) (p : Finding → Bool)
    (hp : ∀ st msg, p ⟨tn, fn, "system_codes_check", st, msg⟩ = false) :
    (codesOut tn fn c col codes).filter p = [] := by
  unfold codesOut
  split
  · split
    · split <;> simp [hp]
    · rfl
  · rfl

theorem dupOut_filter_none (tn fn : String) (c : FieldChecks) (col : List (Option String))
    (p : Finding → Bool) (hp : ∀ st msg, p ⟨tn, fn, "duplicate_check", st, msg⟩ = false) :
    (dupOut tn fn c col).filter p = [] := by
  unfold dupOut
  split
  · split <;> simp [hp]
  · rfl

theorem dupOut_filter_all (tn fn : String) (c : FieldChecks) (col : List (Option String))
    (p : Finding → Bool) (hp : ∀ st msg, p ⟨tn, fn, "duplicate_check", st, msg⟩ = true) :
    (dupOut tn fn c col).filter p = dupOut tn fn c col := by
  unfold dupOut
  split
  · split <;> simp [hp]
  · rfl

theorem invalidEmailCount_pos_iff (col : List (Option String)) :
    0 < invalidEmailCount col ↔
      ∃ v ∈ (nonNullNonBlank col).take 100, is_valid_email (pyStrip v) = false := by
  unfold invalidEmailCount
  rw [← List.countP_eq_length_filter, List.countP_pos_iff]
  constructor
  · rintro ⟨a, ha, hv⟩
    obtain ⟨v, hvmem, rfl⟩ := List.mem_map.1 ha
    exact ⟨v, hvmem, by simpa using hv⟩
  · rintro ⟨v, hvmem, hv⟩
    exact ⟨pyStrip v, List.mem_map_of_mem _ hvmem, by simpa using hv⟩

/-- The one email Finding of an error-free run, determined by the sampled
values of the column. -/
def emailFindingOf (tn fn : String) (col : List (Option String)) : Finding :=
  if 0 < invalidEmailCount col then
    ⟨tn, fn, "email_check", "FAIL",
      emailFailMsg (invalidEmailCount col) (nonNullNonBlank col).length⟩
  else ⟨tn, fn, "email_check", "PASS", emailPassMsg (nonNullNonBlank col).length⟩

theorem emailOut_eq (tn fn : String) (c : FieldChecks) (col : List (Option String))
    (hc : c.email_check = true) (hnn : 0 < (nonNullNonBlank col).length) :
    emailOut tn fn c col = [emailFindingOf tn fn col] := by
  unfold emailOut emailFindingOf
  rw [if_pos hc, if_pos hnn]
  split <;> rfl

/-- The one duplicate Finding of an error-free run. -/
def dupFindingOf (tn fn : String) (col : List (Option String)) : Finding :=
  if !(dupGroups (nonNullVals col)).isEmpty then
    ⟨tn, fn, "duplicate_check", "FAIL",
      dupFailMsg (dupTotal (nonNullVals col)) (dupGroups (nonNullVals col)).length⟩
  else ⟨tn, fn, "duplicate_check", "PASS", "No duplicate values found"⟩

theorem dupOut_eq (tn fn : String) (c : FieldChecks) (col : List (Option String))
    (hc : c.duplicate_check = true) :
    dupOut tn fn c col = [dupFindingOf tn fn col] := by
  unfold dupOut dupFindingOf
  rw [if_pos hc]
  split <;> rfl

/-- C4: when the email check is enabled and the count of non-null non-blank
values is positive, the error-free run emits exactly one email Finding; its
status is FAIL iff some value among the first 100 qualifying rows is an
invalid email after stripping, and its message reports the number of invalid
values found in the sample over the whole sampled population (the non-null
non-blank count). -/
theorem c4_email_bounded_sample (tn fn : String) (c : FieldChecks)
    (colIntro : Except String (List String)) (col : List (Option String))
    (errMsg : String) (codes : List String)
    (hcol : column_exists colIntro fn = true) (hc : c.email_check = true)
    (hnn : 0 < (nonNullNonBlank col).length) :
    (run_field_checks tn fn c colIntro col none errMsg codes).filter
        (fun f => f.check_type == "email_check") = [emailFindingOf tn fn col] ∧
    ((emailFindingOf tn fn col).status = "FAIL" ↔
      ∃ v ∈ (nonNullNonBlank col).take 100, is_valid_email (pyStrip v) = false) ∧
    ((emailFindingOf tn fn col).status = "FAIL" →
      (emailFindingOf tn fn col).message =
        emailFailMsg (invalidEmailCount col) (nonNullNonBlank col).length) ∧
    ((emailFindingOf tn fn col).status = "PASS" →
      (emailFindingOf tn fn col).message = emailPassMsg (nonNullNonBlank col).length) := by
  have hrows : col ≠ [] := by
    intro h
    subst h
    simp [nonNullNonBlank] at hnn
  refine ⟨?_, ?_, ?_, ?_⟩
  · rw [run_field_checks_none tn fn c colIntro col errMsg codes hcol hrows]
    rw [List.filter_append, List.filter_append, List.filter_append, List.filter_append]
    rw [nullOut_filter_none tn fn c col _ (fun st msg => rfl),
      blankOut_filter_none tn fn c col _ (fun st msg => rfl),
      emailOut_filter_all tn fn c col _ (fun st msg => rfl),
      codesOut_filter_none tn fn c col codes _ (fun st msg => rfl),
      dupOut_filter_none tn fn c col _ (fun st msg => rfl),
      emailOut_eq tn fn c col hc hnn]
    simp
  · unfold emailFindingOf
    by_cases hbad : 0 < invalidEmailCount col
    · rw [if_pos hbad]
      exact iff_of_true rfl ((invalidEmailCount_pos_iff col).1 hbad)
    · rw [if_neg hbad]
      refine iff_of_false ?_ ?_
      · intro h
        exact absurd (show ("PASS" : String) = "FAIL" from h) (by decide)
      · intro hex
        exact hbad ((invalidEmailCount_pos_iff col).2 hex)
  · unfold emailFindingOf
    by_cases hbad : 0 < invalidEmailCount col
    · rw [if_pos hbad]
      intro _
      rfl
    · rw [if_neg hbad]
      intro h
      exact absurd (show ("PASS" : String) = "FAIL" from h) (by decide)
  · unfold emailFindingOf
    by_cases hbad : 0 < invalidEmailCount col
    · rw [if_pos hbad]
      intro h
      exact absurd (show ("FAIL" : String) = "PASS" from h) (by decide)
    · rw [if_neg hbad]
      intro _
      rfl

theorem c4_email_bounded_sample_witness :
    (run_field_checks "t" "f" { noChecks with email_check := true } (.ok ["f"])
        [some "nope"] none "" []).filter (fun f => f.check_type == "email_check") =
      [emailFindingOf "t" "f" [some "nope"]] :=
  (c4_email_bounded_sample "t" "f" { noChecks with email_check := true } (.ok ["f"])
    [some "nope"] "" [] (by decide) rfl (by decide)).1

/-- C5 counterexample: for column values 1,1,2,3,3,3 the code reports a
duplicate total of 3 — the sum of count minus one over the two duplicated
values, one plus two — not the 2 predicted by the claim. -/
theorem c5_counterexample :
    run_field_checks "t" "f" { noChecks with duplicate_check := true } (.ok ["f"])
        [some "1", some "1", some "2", some "3", some "3", some "3"] none "" [] =
      [⟨"t", "f", "duplicate_check", "FAIL", dupFailMsg 3 2⟩] ∧
    dupTotal ["1", "1", "2", "3", "3", "3"] = 3 ∧ (3 : Nat) ≠ 2 :=
  ⟨by decide, by decide, by decide⟩

/-- C5 amended: when the duplicate check is enabled, the error-free run
emits exactly one duplicate Finding; it is FAIL iff some non-null value
occurs more than once, the reported total is the sum of count minus one over
all duplicated values — equivalently the number of non-null rows minus the
number of distinct non-null values — and for column values 1,1,2,3,3,3 that
total is 3 across 2 distinct duplicated values. -/
theorem c5_amended (tn fn : String) (c : FieldChecks)
    (colIntro : Except String (List String)) (col : List (Option String))
    (errMsg : String) (codes : List String)
    (hcol : column_exists colIntro fn = true) (hrows : col ≠ [])
    (hc : c.duplicate_check = true) :
    (run_field_checks tn fn c colIntro col none errMsg codes).filter
        (fun f => f.check_type == "duplicate_check") = [dupFindingOf tn fn col] ∧
    ((dupFindingOf tn fn col).status = "FAIL" ↔
      ∃ v, 2 ≤ (nonNullVals col).count v) ∧
    ((dupFindingOf tn fn col).status = "FAIL" →
      (dupFindingOf tn fn col).message =
        dupFailMsg (dupTotal (nonNullVals col)) (dupGroups (nonNullVals col)).length) ∧
    dupTotal (nonNullVals col) =
      (nonNullVals col).length - (distinctFirst (nonNullVals col)).length ∧
    dupTotal ["1", "1", "2", "3", "3", "3"] = 3 ∧
    (dupGroups ["1", "1", "2", "3", "3", "3"]).length = 2 := by
  refine ⟨?_, ?_, ?_, dupTotal_eq (nonNullVals col), by decide, by decide⟩
  · rw [run_field_checks_none tn fn c colIntro col errMsg codes hcol hrows]
    rw [List.filter_append, List.filter_append, List.filter_append, List.filter_append]
    rw [nullOut_filter_none tn fn c col _ (fun st msg => rfl),
      blankOut_filter_none tn fn c col _ (fun st msg => rfl),
      emailOut_filter_none tn fn c col _ (fun st msg => rfl),
      codesOut_filter_none tn fn c col codes _ (fun st msg => rfl),
      dupOut_filter_all tn fn c col _ (fun st msg => rfl),
      dupOut_eq tn fn c col hc]
    simp
  · unfold dupFindingOf
    by_cases hdups : dupGroups (nonNullVals col) = []
    · rw [if_neg (by simp [hdups])]
      refine iff_of_false ?_ ?_
      · intro h
        exact absurd (show ("PASS" : String) = "FAIL" from h) (by decide)
      · intro hex
        exact absurd hdups ((dupGroups_ne_nil_iff (nonNullVals col)).2 hex)
    · rw [if_pos (by simp [hdups])]
      exact iff_of_true rfl ((dupGroups_ne_nil_iff (nonNullVals col)).1 hdups)
  · unfold dupFindingOf
    by_cases hdups : dupGroups (nonNullVals col) = []
    · rw [if_neg (by simp [hdups])]
      intro h
      exact absurd (show ("PASS" : String) = "FAIL" from h) (by decide)
    · rw [if_pos (by simp [hdups])]
      intro _
      rfl

theorem c5_amended_witness :
    (run_field_checks "t" "f" { noChecks with duplicate_check := true } (.ok ["f"])
        [some "1", some "1", some "2", some "3", some "3", some "3"] none "" []).filter
        (fun f => f.check_type == "duplicate_check") =
      [dupFindingOf "t" "f" [some "1", some "1", some "2", some "3", some "3", some "3"]] :=
  (c5_amended "t" "f" { noChecks with duplicate_check := true } (.ok ["f"])
    [some "1", some "1", some "2", some "3", some "3", some "3"] "" []
    (by decide) (by decide) rfl).1

theorem run_table_checks_mem (codesCfg : CodesCfg) (db : Database) (tn : String) :
    ∀ (fields : List (String × FieldChecks)) (f : Finding),
      f ∈ run_table_checks codesCfg db tn fields →
      ∃ fn c, (fn, c) ∈ fields ∧
        f ∈ run_field_checks tn fn c (db.colsQ tn) (db.colVals tn fn) (db.failAt tn fn)
          (db.errMsg tn fn) (get_valid_system_codes codesCfg tn fn) := by
  intro fields
  induction fields with
  | nil =>
    intro f h
    cases h
  | cons p rest ih =>
    intro f h
    obtain ⟨fn, c⟩ := p
    unfold run_table_checks at h
    rcases List.mem_append.1 h with h | h
    · exact ⟨fn, c, List.mem_cons_self _ _, h⟩
    · obtain ⟨fn₂, c₂, h1, h2⟩ := ih f h
      exact ⟨fn₂, c₂, List.mem_cons_of_mem _ h1, h2⟩

theorem run_tables_mem (codesCfg : CodesCfg) (db : Database) :
    ∀ (cfg : ChecksCfg) (t : String) (fs : List Finding),
      (t, fs) ∈ run_tables codesCfg db cfg →
      ∃ fields, (t, fields) ∈ cfg ∧ fs = run_table_checks codesCfg db t fields ∧
        fs ≠ [] := by
  intro cfg
  induction cfg with
  | nil =>
    intro t fs h
    cases h
  | cons p rest ih =>
    intro t fs h
    obtain ⟨tn, fields⟩ := p
    unfold run_tables at h
    split at h
    · obtain ⟨fields₂, h1, h2, h3⟩ := ih t fs h
      exact ⟨fields₂, List.mem_cons_of_mem _ h1, h2, h3⟩
    · dsimp only at h
      split at h
      · obtain ⟨fields₂, h1, h2, h3⟩ := ih t fs h
        exact ⟨fields₂, List.mem_cons_of_mem _ h1, h2, h3⟩
      case isFalse hne =>
        rcases List.mem_cons.1 h with heq | h
        · injection heq with e1 e2
          subst e1
          subst e2
          exact ⟨fields, List.mem_cons_self _ _, rfl, by simpa using hne⟩
        · obtain ⟨fields₂, h1, h2, h3⟩ := ih t fs h
          exact ⟨fields₂, List.mem_cons_of_mem _ h1, h2, h3⟩

theorem dictGet_mem {β : Type} (m : List (String × β)) (k : String) (v : β)
    (h : dictGet m k = some v) : (k, v) ∈ m := by
  unfold dictGet at h
  obtain ⟨p, hp1, hp2⟩ := Option.map_eq_some'.1 h
  have hmem := List.mem_of_find?_eq_some hp1
  have hkey := List.find?_some hp1
  have hk : p.1 = k := beq_iff_eq.1 hkey
  have hp : p = (k, v) := by
    obtain ⟨p1, p2⟩ := p
    simp only at hp2 hk
    rw [hk, hp2]
  rw [hp] at hmem
  exact hmem

/-- Shape invariant of a Finding filed under table `t` of a report built
from the configuration `cfg`. -/
def goodFinding (cfg : ChecksCfg) (t : String) (f : Finding) : Prop :=
  f.table = t ∧ (∃ fields, (t, fields) ∈ cfg ∧ ∃ c, (f.field, c) ∈ fields) ∧
  statusOK f ∧ checkTypeOK f

/-- C10: in every report of `run_all_checks` or
`run_checks_for_specific_table`, each table key maps to a non-empty list of
findings, and every Finding names its table key, a configured field of that
table, one of the four statuses and one of the eight check types. -/
theorem c10_report_invariant (cfg : ChecksCfg) (codesCfg : CodesCfg) (db : Database)
    (t tq : String) (fs : List Finding)
    (h : (t, fs) ∈ run_all_checks cfg codesCfg db ∨
      (t, fs) ∈ run_checks_for_specific_table cfg codesCfg db tq) :
    fs ≠ [] ∧ ∀ f ∈ fs, goodFinding cfg t f := by
  have main : ∀ fields, (t, fields) ∈ cfg → fs = run_table_checks codesCfg db t fields →
      ∀ f ∈ fs, goodFinding cfg t f := by
    intro fields hfields hfs f hf
    rw [hfs] at hf
    obtain ⟨fn, c, hmem, hrun⟩ := run_table_checks_mem codesCfg db t fields f hf
    obtain ⟨htab, hfld, hst, hct, -, -⟩ := run_field_checks_mem t fn c (db.colsQ t)
      (db.colVals t fn) (db.failAt t fn) (db.errMsg t fn)
      (get_valid_system_codes codesCfg t fn) f hrun
    exact ⟨htab, ⟨fields, hfields, c, hfld ▸ hmem⟩, hst, hct⟩
  rcases h with h | h
  · unfold run_all_checks at h
    split at h
    · cases h
    · obtain ⟨fields, h1, h2, h3⟩ := run_tables_mem codesCfg db cfg t fs h
      exact ⟨h3, main fields h1 h2⟩
  · unfold run_checks_for_specific_table at h
    cases hget : dictGet cfg tq with
    | none =>
      rw [hget] at h
      dsimp only at h
      cases h
    | some fields =>
      rw [hget] at h
      dsimp only at h
      by_cases htab : (!table_exists (db.tableQ tq)) = true
      · rw [if_pos htab] at h
        cases h
      · rw [if_neg htab] at h
        by_cases hemp : (run_table_checks codesCfg db tq fields).isEmpty = true
        · rw [if_pos hemp] at h
          cases h
        · rw [if_neg hemp] at h
          rcases List.mem_cons.1 h with heq | h
          · injection heq with e1 e2
            subst e1
            subst e2
            exact ⟨by simpa using hemp,
              main fields (dictGet_mem cfg _ fields hget) rfl⟩
          · cases h

/-- Configuration used by the concrete instance of the report invariant. -/
def cfgW : ChecksCfg := [("users", [("email", { noChecks with null_check := true })])]

/-- Data source used by the concrete instance of the report invariant. -/
def dbW : Database where
  tableQ := fun _ => .ok (some "users")
  colsQ := fun _ => .ok ["email"]
  colVals := fun _ _ => [some "a@b.com"]
  failAt := fun _ _ => none
  errMsg := fun _ _ => ""

theorem c10_report_invariant_witness :
    ([(⟨"users", "email", "null_check", "PASS", "No NULL values found"⟩ : Finding)] ≠ []) ∧
    goodFinding cfgW "users" ⟨"users", "email", "null_check", "PASS", "No NULL values found"⟩ :=
  have h := c10_report_invariant cfgW [] dbW "users" "users"
    [⟨"users", "email", "null_check", "PASS", "No NULL values found"⟩] (Or.inl (by decide))
  ⟨h.1, h.2 _ (by decide)⟩

end DQC
